import Mathlib

/-!
Verification of the AI Job Hunter core: the quick keyword-overlap scorer
(`agent_controller.py`) and the iterative resume-optimization control loop
with its structured-response extraction (`llm_engine.py`), embedded
shallowly in Lean.  Python floats are modelled by `ℚ`, Python ints by `ℤ`,
Python exceptions by `Except String`, and the external LLM provider by an
oracle function supplied as a parameter.
-/

namespace JobHunter

/-! ## agent_controller.py — quick scorer -/

/-- Fit threshold constant `OVERLAP_GOOD = 0.25`. -/
def OVERLAP_GOOD : ℚ := 25 / 100

/-- Fit threshold constant `OVERLAP_STRETCH = 0.12`. -/
def OVERLAP_STRETCH : ℚ := 12 / 100

/-- Characters matched by the regex class `[a-z0-9]`. -/
def isTokenChar (c : Char) : Bool :=
  ('a' ≤ c && c ≤ 'z') || ('0' ≤ c && c ≤ '9')

/-- Scanner for `re.findall`: splits a character list into its maximal runs
of `[a-z0-9]` characters (the accumulator holds the current run reversed). -/
def runsAux (acc : List Char) : List Char → List (List Char)
  | [] => if acc = [] then [] else [acc.reverse]
  | c :: cs =>
    if isTokenChar c then runsAux (c :: acc) cs
    else if acc = [] then runsAux [] cs else acc.reverse :: runsAux [] cs

/-- Model of `re.findall(r"[a-z0-9]\x7b2,\x7d", s)`: with a greedy counted
repetition the non-overlapping left-to-right matches are exactly the maximal
`[a-z0-9]` runs of length at least 2. -/
def findAll (s : List Char) : List (List Char) :=
  (runsAux [] s).filter (fun r => 2 ≤ r.length)

/-- `_tokenize` on a string argument: lowercase (`str.lower`, modelled by
`Char.toLower`, exact on ASCII which is all the regex can match), extract
words of length at least 2, return the set.  The Python guard
`if not text ...` returns the empty set on `""`. -/
def _tokenize (text : String) : Finset String :=
  if text = "" then ∅
  else ((findAll (text.data.map Char.toLower)).map String.mk).toFinset

/-- The full `_tokenize` entry: `none` stands for any non-string Python
value, rejected by the `isinstance(text, str)` guard. -/
def tokenizeArg : Option String → Finset String
  | none => ∅
  | some s => _tokenize s

/-- `_overlap_ratio`: `|resume ∩ job| / |job|`, and `0` if the job token set
is empty. -/
def _overlap_ratio (resume_tokens job_tokens : Finset String) : ℚ :=
  if job_tokens = ∅ then 0
  else ((resume_tokens ∩ job_tokens).card : ℚ) / (job_tokens.card : ℚ)

/-- `_fit_label`: threshold step function on the overlap ratio. -/
def _fit_label (ratio : ℚ) : String :=
  if ratio ≥ OVERLAP_GOOD then "✅ Good Fit"
  else if ratio ≥ OVERLAP_STRETCH then "⚠️ Stretch"
  else "❌ Not Recommended"

/-- Python `round` on an exact value: round half to even. -/
def pyRound (q : ℚ) : ℤ :=
  if q - ⌊q⌋ < 1 / 2 then ⌊q⌋
  else if 1 / 2 < q - ⌊q⌋ then ⌊q⌋ + 1
  else if ⌊q⌋ % 2 = 0 then ⌊q⌋ else ⌊q⌋ + 1

/-- A job posting as consumed by `quick_score_jobs`: the two fields the
scorer reads (each possibly absent or null), plus all remaining key/value
pairs of the posting dict, carried opaquely. -/
structure JobPosting where
  title : Option String
  description : Option String
  fields : List (String × String)
deriving DecidableEq

/-- One output record of `quick_score_jobs`: the copied posting dict plus
the two added keys `fit_label` and `overlap_score`. -/
structure ScoredPosting where
  job : JobPosting
  fit_label : String
  overlap_score : ℤ
deriving DecidableEq

/-- `AgentController.quick_score_jobs`: tokenize the resume and each
posting's combined `title + " " + description` (absent/null fields default
to `""` via `or`), compute the overlap ratio, attach label and rounded
percentage score.  `dict(j)` copies the posting, so input records are
unmutated — in the functional model the input list is returned inside the
output records unchanged. -/
def quick_score_jobs (resume_text : String) (jobs : List JobPosting) :
    List ScoredPosting :=
  let resume_tokens := _tokenize resume_text
  jobs.map (fun j =>
    let desc := j.description.getD ""
    let title := j.title.getD ""
    let combined := title ++ " " ++ desc
    let job_tokens := _tokenize combined
    let ratio := _overlap_ratio resume_tokens job_tokens
    { job := j, fit_label := _fit_label ratio,
      overlap_score := pyRound (ratio * 100) })

/-! ## llm_engine.py — constants and Python value modelling -/

/-- Context budget `CONTEXT_LIMIT = 2000` characters. -/
def CONTEXT_LIMIT : ℕ := 2000

/-- Iteration cap `MAX_REVISION_RETRIES = 2`. -/
def MAX_REVISION_RETRIES : ℕ := 2

/-- Quality gate `SCORE_GOOD_ENOUGH = 8`. -/
def SCORE_GOOD_ENOUGH : ℤ := 8

/-- `_slice`: `(s or "")[:limit]` — keep the first `limit` characters. -/
def _slice (s : String) (limit : ℕ) : String := String.mk (s.data.take limit)

/-- Whitespace for Python `str.strip` and the regex class `\s`
(ASCII: space, tab, newline, carriage return, vertical tab, form feed;
non-ASCII whitespace is outside the model). -/
def isPySpace (c : Char) : Bool :=
  [' ', '\t', '\n', '\r', '\x0b', '\x0c'].contains c

/-- Python `str.strip()`. -/
def pyStrip (s : String) : String :=
  String.mk (((s.data.dropWhile isPySpace).reverse.dropWhile isPySpace).reverse)

/-- A value decoded by `json.loads`.  JSON numbers are modelled as integers
only; a numeral with a fractional or exponent part (a Python float) is
outside the model and treated as a parse failure. -/
inductive Json where
  | null
  | bool (b : Bool)
  | num (n : ℤ)
  | str (s : String)
  | arr (xs : List Json)
  | obj (kvs : List (String × Json))

/-- Python truthiness (`if parsed:`) of a JSON-decoded value. -/
def jsonTruthy : Json → Bool
  | .null => false
  | .bool b => b
  | .num n => n != 0
  | .str s => s != ""
  | .arr xs => !xs.isEmpty
  | .obj kvs => !kvs.isEmpty

/-- Python `parsed.get(key, default)`: on a dict the last binding for the
key wins (duplicate JSON keys collapse to the last); on any non-dict value
`.get` raises `AttributeError`. -/
def pyDictGet (v : Json) (key : String) (dflt : Json) : Except String Json :=
  match v with
  | .obj kvs =>
    match (kvs.filter (fun kv => kv.1 == key)).getLast? with
    | some kv => .ok kv.2
    | none => .ok dflt
  | _ => .error "AttributeError"

/-- Decimal value of a digit list. -/
def digitsVal (ds : List Char) : ℕ :=
  ds.foldl (fun acc c => acc * 10 + (c.toNat - '0'.toNat)) 0

/-- Python `int(x)` on a JSON-decoded value: ints pass through, booleans
become 0/1, strings parse as an optionally signed decimal integer with
surrounding whitespace allowed (else `ValueError`; digit-group underscores
are not modelled); `None`, lists and dicts raise `TypeError`. -/
def pyInt : Json → Except String ℤ
  | .num n => .ok n
  | .bool b => .ok (if b then 1 else 0)
  | .str s =>
    match (pyStrip s).data with
    | [] => .error "ValueError"
    | c :: rest =>
      let signed : Bool := c == '-' || c == '+'
      let digits := if signed then rest else c :: rest
      if !digits.isEmpty && digits.all Char.isDigit then
        .ok ((if c == '-' then -1 else 1) * (digitsVal digits : ℤ))
      else .error "ValueError"
  | _ => .error "TypeError"

mutual

/-- Python `repr` of a JSON-decoded value (used only through `pyStr` when a
grader response carries a non-string `feedback`; quote escaping inside
strings is not modelled). -/
def pyRepr : Json → String
  | .null => "None"
  | .bool b => if b then "True" else "False"
  | .num n => toString n
  | .str s => "\x27" ++ s ++ "\x27"
  | .arr xs => "[" ++ ", ".intercalate (pyReprList xs) ++ "]"
  | .obj kvs => "\x7b" ++ ", ".intercalate (pyReprKvs kvs) ++ "\x7d"

/-- Reprs of the items of a JSON array. -/
def pyReprList : List Json → List String
  | [] => []
  | x :: xs => pyRepr x :: pyReprList xs

/-- Reprs of the members of a JSON object. -/
def pyReprKvs : List (String × Json) → List String
  | [] => []
  | kv :: kvs => ("\x27" ++ kv.1 ++ "\x27: " ++ pyRepr kv.2) :: pyReprKvs kvs

end

/-- Python `str()` of a JSON-decoded value, as an f-string renders it. -/
def pyStr (v : Json) : String :=
  match v with
  | .str s => s
  | _ => pyRepr v

/-! ## llm_engine.py — model of `json.loads` (the subset relevant here) -/

/-- JSON inter-token whitespace. -/
def isJsonWs (c : Char) : Bool :=
  [' ', '\t', '\n', '\r'].contains c

/-- Skip JSON whitespace. -/
def skipWs (cs : List Char) : List Char := cs.dropWhile isJsonWs

/-- Value of one hex digit (by code point: digits, then the two letter
ranges). -/
def hexVal (c : Char) : Option ℕ :=
  let n := c.toNat
  if 48 ≤ n && n ≤ 57 then some (n - 48)
  else if 97 ≤ n && n ≤ 102 then some (n - 87)
  else if 65 ≤ n && n ≤ 70 then some (n - 55)
  else none

/-- Single-character JSON escapes. -/
def escChar (e : Char) : Option Char :=
  if e == '"' then some '"'
  else if e == '\\' then some '\\'
  else if e == '/' then some '/'
  else if e == 'b' then some '\x08'
  else if e == 'f' then some '\x0c'
  else if e == 'n' then some '\n'
  else if e == 'r' then some '\r'
  else if e == 't' then some '\t'
  else none

/-- Body of a JSON string after the opening quote: returns the decoded
characters and the remainder after the closing quote.  Strict mode rejects
raw control characters; `\u` escapes decode one code unit (surrogate-pair
recombination is outside the model). -/
def jStringAux : List Char → Option (List Char × List Char)
  | [] => none
  | '"' :: cs => some ([], cs)
  | '\\' :: 'u' :: a :: b :: c :: d :: cs =>
    match hexVal a, hexVal b, hexVal c, hexVal d with
    | some ha, some hb, some hc, some hd =>
      (jStringAux cs).map (fun p => (Char.ofNat (4096 * ha + 256 * hb + 16 * hc + hd) :: p.1, p.2))
    | _, _, _, _ => none
  | '\\' :: e :: cs =>
    match escChar e with
    | some ch => (jStringAux cs).map (fun p => (ch :: p.1, p.2))
    | none => none
  | c :: cs =>
    if c.toNat < 32 then none
    else (jStringAux cs).map (fun p => (c :: p.1, p.2))

/-- A JSON integer numeral: optional minus, no leading zeros; a following
`.`, `e` or `E` would make it a float, which is outside the model. -/
def parseNum (cs : List Char) : Option (Json × List Char) :=
  let (sign, cs1) : ℤ × List Char :=
    match cs with
    | '-' :: rest => (-1, rest)
    | _ => (1, cs)
  let ds := cs1.takeWhile Char.isDigit
  let rest := cs1.drop ds.length
  if ds.isEmpty then none
  else if ds.length > 1 && ds.headD '0' == '0' then none
  else
    match rest with
    | '.' :: _ => none
    | 'e' :: _ => none
    | 'E' :: _ => none
    | _ => some (.num (sign * (digitsVal ds : ℤ)), rest)

/-- Consume an expected literal tail (the rest of `true`, `false`,
`null`). -/
def dropLit : List Char → List Char → Option (List Char)
  | [], cs => some cs
  | l :: ls, c :: cs => if c == l then dropLit ls cs else none
  | _ :: _, [] => none

mutual

/-- Parse one JSON value (fuel bounds the recursion depth; `jsonLoads`
supplies more fuel than any input can consume). -/
def parseValue : ℕ → List Char → Option (Json × List Char)
  | 0, _ => none
  | fuel + 1, cs =>
    match skipWs cs with
    | [] => none
    | c :: rest =>
      if c == '"' then (jStringAux rest).map (fun p => (Json.str (String.mk p.1), p.2))
      else if c == '\x7b' then parseObj fuel (skipWs rest)
      else if c == '[' then parseArr fuel (skipWs rest)
      else if c == 't' then (dropLit "rue".data rest).map (fun r => (Json.bool true, r))
      else if c == 'f' then (dropLit "alse".data rest).map (fun r => (Json.bool false, r))
      else if c == 'n' then (dropLit "ull".data rest).map (fun r => (Json.null, r))
      else parseNum (c :: rest)

/-- Object tail after the opening brace and whitespace. -/
def parseObj : ℕ → List Char → Option (Json × List Char)
  | 0, _ => none
  | fuel + 1, cs =>
    match cs with
    | '\x7d' :: rest => some (.obj [], rest)
    | _ => parseMembers fuel cs []

/-- One or more `"key": value` members. -/
def parseMembers : ℕ → List Char → List (String × Json) → Option (Json × List Char)
  | 0, _, _ => none
  | fuel + 1, cs, acc =>
    match skipWs cs with
    | '"' :: rest =>
      match jStringAux rest with
      | none => none
      | some (kcs, afterKey) =>
        match skipWs afterKey with
        | ':' :: afterColon =>
          match parseValue fuel afterColon with
          | none => none
          | some (v, afterVal) =>
            match skipWs afterVal with
            | ',' :: afterComma => parseMembers fuel afterComma (acc ++ [(String.mk kcs, v)])
            | '\x7d' :: afterBrace => some (.obj (acc ++ [(String.mk kcs, v)]), afterBrace)
            | _ => none
        | _ => none
    | _ => none

/-- Array tail after the opening bracket and whitespace. -/
def parseArr : ℕ → List Char → Option (Json × List Char)
  | 0, _ => none
  | fuel + 1, cs =>
    match cs with
    | ']' :: rest => some (.arr [], rest)
    | _ => parseItems fuel cs []

/-- One or more array items. -/
def parseItems : ℕ → List Char → List Json → Option (Json × List Char)
  | 0, _, _ => none
  | fuel + 1, cs, acc =>
    match parseValue fuel cs with
    | none => none
    | some (v, afterVal) =>
      match skipWs afterVal with
      | ',' :: afterComma => parseItems fuel afterComma (acc ++ [v])
      | ']' :: afterBracket => some (.arr (acc ++ [v]), afterBracket)
      | _ => none

end

/-- `json.loads`: parse a full value and require only whitespace after it
(anything else is `Extra data` and raises).  Each nesting level consumes at
least one input character, so the fuel is never the reason a parse fails. -/
def jsonLoads (s : String) : Option Json :=
  match parseValue (4 * s.length + 4) s.data with
  | some (v, rest) => if (skipWs rest).isEmpty then some v else none
  | none => none

/-! ## llm_engine.py — `_extract_json` and its two regex searches -/

/-- The optional `(?:json)?` tag after the opening fence. -/
def dropJsonTag (cs : List Char) : List Char :=
  match cs with
  | 'j' :: 's' :: 'o' :: 'n' :: rest => rest
  | _ => cs

/-- Does `\s*` followed by a closing fence start here? -/
def fenceClose (cs : List Char) : Bool :=
  match cs.dropWhile isPySpace with
  | '`' :: '`' :: '`' :: _ => true
  | _ => false

/-- Lazy body of the fenced group: the shortest extension up to a closing
brace that is followed by whitespace and a closing fence. -/
def fencedGroupAux : List Char → Option (List Char)
  | [] => none
  | c :: cs =>
    if c == '\x7d' && fenceClose cs then some [c]
    else (fencedGroupAux cs).map (fun g => c :: g)

/-- Try the fenced-block pattern at this position: an opening fence, the
optional `json` tag, `\s*`, then the lazily-shortest braced group whose
closing brace is followed by `\s*` and a closing fence. -/
def matchFenceAt (cs : List Char) : Option (List Char) :=
  match cs with
  | '`' :: '`' :: '`' :: rest =>
    match (dropJsonTag rest).dropWhile isPySpace with
    | '\x7b' :: body => (fencedGroupAux body).map (fun g => '\x7b' :: g)
    | _ => none
  | _ => none

/-- `re.search` for the fenced-block pattern: leftmost matching start. -/
def fencedSearch : List Char → Option (List Char)
  | [] => none
  | c :: cs =>
    match matchFenceAt (c :: cs) with
    | some g => some g
    | none => fencedSearch cs

/-- `re.search(r"\x7b[\s\S]*\x7d", text)`: greedy, so the match runs from
the first opening brace to the last closing brace after it, if any. -/
def bareBraces (cs : List Char) : Option (List Char) :=
  match cs.dropWhile (fun c => !(c == '\x7b')) with
  | '\x7b' :: rest =>
    match rest.reverse.dropWhile (fun c => !(c == '\x7d')) with
    | '\x7d' :: more => some ('\x7b' :: ('\x7d' :: more).reverse)
    | _ => none
  | _ => none

/-- Strategies 2 and 3 of `_extract_json`: bare-braces extraction, then a
whole-text parse. -/
def extractTail (cs : List Char) : Option Json :=
  match bareBraces cs with
  | some g =>
    match jsonLoads (String.mk g) with
    | some j => some j
    | none => jsonLoads (String.mk cs)
  | none => jsonLoads (String.mk cs)

/-- `_extract_json`: strip, then try fenced-block extraction, bare-braces
extraction, and a whole-text parse, in that order; each failing strategy
(`except: pass`) falls through to the next. -/
def _extract_json (text : String) : Option Json :=
  match fencedSearch (pyStrip text).data with
  | some g =>
    match jsonLoads (String.mk g) with
    | some j => some j
    | none => extractTail (pyStrip text).data
  | none => extractTail (pyStrip text).data

/-! ## llm_engine.py — optimize_resume_iterative

The external LLM is an oracle: the drafter's call takes the system and user
message contents and the grader's call takes its prompt content; each
returns either the extracted response content (`_get_content` composed with
`llm.invoke`) or a raised exception's message.  The `status_container`
progress writes are UI observer effects with no influence on the state and
are omitted. -/

/-- The LangGraph `ResumeState` threaded through the loop. -/
structure ResumeState where
  original_resume : String
  job_description : String
  current_draft : String
  feedback : String
  score : ℤ
  revision_count : ℕ
deriving DecidableEq

/-- The drafter's system message. -/
def drafterSystem : String :=
  "STRICT RULES: You must ONLY use facts present in the \x27ORIGINAL RESUME\x27. " ++
  "Do NOT add tools (e.g., Docker, AWS) if the user didn\x27t list them. " ++
  "Output ONLY the resume text, no preamble or commentary."

/-- The drafter's user message for the first revision. -/
def drafterUser0 (original job_desc_short : String) : String :=
  "ORIGINAL RESUME (use only these facts):\n" ++ original ++ "\n\n" ++
  "JOB DESCRIPTION (tailor wording to match, but do not add skills not in the resume):\n" ++
  job_desc_short ++ "\n\n" ++
  "Rewrite the resume to match the job. Output ONLY the resume text."

/-- The drafter's user message for later revisions. -/
def drafterUserRev (current_sliced job_desc_short feedback : String) : String :=
  "Current draft (first 2000 chars):\n" ++ current_sliced ++ "\n\n" ++
  "Job (first 2000 chars):\n" ++ job_desc_short ++ "\n\n" ++
  "Grader feedback: " ++ feedback ++ "\n\n" ++
  "Revise the draft using ONLY facts from the ORIGINAL RESUME. Output ONLY the resume text."

/-- The drafter's local `current`: `state.get("current_draft") or original`,
where `original` is the sliced original resume. -/
def drafterCurrent (s : ResumeState) : String :=
  if s.current_draft = "" then _slice s.original_resume CONTEXT_LIMIT else s.current_draft

/-- The drafter's local `user`: first-revision or revision prompt. -/
def drafterUserOf (s : ResumeState) : String :=
  if s.revision_count = 0 then
    drafterUser0 (_slice s.original_resume CONTEXT_LIMIT) (_slice s.job_description CONTEXT_LIMIT)
  else
    drafterUserRev (_slice (drafterCurrent s) CONTEXT_LIMIT)
      (_slice s.job_description CONTEXT_LIMIT) s.feedback

/-- `drafter_node`: build the prompt, call the provider; empty content
falls back to `current` (itself the prior draft, or the sliced original
when no prior draft exists); the returned partial state sets
`current_draft` and increments `revision_count`. -/
def drafter_node (oD : String → String → Except String String) (s : ResumeState) :
    Except String ResumeState :=
  match oD drafterSystem (drafterUserOf s) with
  | .error e => .error e
  | .ok draft0 =>
    .ok { s with current_draft := if draft0 = "" then drafterCurrent s else draft0,
                 revision_count := s.revision_count + 1 }

/-- The grader's prompt. -/
def grader_prompt (s : ResumeState) : String :=
  let current := _slice s.current_draft CONTEXT_LIMIT
  let job_desc_short := _slice s.job_description CONTEXT_LIMIT
  let original := _slice s.original_resume CONTEXT_LIMIT
  "ORIGINAL RESUME (ground truth):\n" ++ original ++ "\n\n" ++
  "DRAFT TO GRADE:\n" ++ current ++ "\n\n" ++
  "JOB DESCRIPTION:\n" ++ job_desc_short ++ "\n\n" ++
  "Grade the DRAFT. If it adds skills/tools/experience NOT in the ORIGINAL RESUME (hallucinations), " ++
  "give a LOW score (1-4). If it stays factual and matches the job, give a higher score (5-10). " ++
  "Output ONLY valid JSON: \x7b \"score\": <1-10 integer>, \"feedback\": \"short actionable feedback\" \x7d"

/-- `grader_node`: call the provider; keep the `score = 0` /
`"Could not grade."` sentinels when the content is empty, unextractable or
falsy; otherwise take `int(parsed.get("score", 0))` (which may raise) and
`parsed.get("feedback", ...)`.  A non-string feedback value is stored via
its f-string rendering, its only downstream use. -/
def grader_node (oG : String → Except String String) (s : ResumeState) :
    Except String ResumeState :=
  match oG (grader_prompt s) with
  | .error e => .error e
  | .ok raw =>
    if raw = "" then .ok { s with score := 0, feedback := "Could not grade." }
    else
      match _extract_json raw with
      | none => .ok { s with score := 0, feedback := "Could not grade." }
      | some parsed =>
        if jsonTruthy parsed then
          match pyDictGet parsed "score" (Json.num 0) with
          | .error e => .error e
          | .ok sv =>
            match pyInt sv with
            | .error e => .error e
            | .ok sc =>
              match pyDictGet parsed "feedback" (Json.str "Could not grade.") with
              | .error e => .error e
              | .ok fv => .ok { s with score := sc, feedback := pyStr fv }
        else .ok { s with score := 0, feedback := "Could not grade." }

/-- `router`: `true` means `__end__` — quality gate reached or iteration
cap hit, both read from the state just written by the grader. -/
def routerEnds (s : ResumeState) : Bool :=
  decide (SCORE_GOOD_ENOUGH ≤ s.score) || decide (MAX_REVISION_RETRIES ≤ s.revision_count)

/-- A proof-producing definition used by `runLoop`'s termination argument:
an `ok` drafter step increments `revision_count` by exactly one. -/
def drafter_node_rev {oD : String → String → Except String String} {s s1 : ResumeState}
    (h : drafter_node oD s = .ok s1) : s1.revision_count = s.revision_count + 1 := by
  unfold drafter_node at h
  split at h
  · exact absurd h (by simp)
  · simp only [Except.ok.injEq] at h
    subst h
    rfl

/-- A proof-producing definition used by `runLoop`'s termination argument:
an `ok` drafter step preserves the original resume and job description. -/
def drafter_node_frame {oD : String → String → Except String String} {s s1 : ResumeState}
    (h : drafter_node oD s = .ok s1) :
    s1.original_resume = s.original_resume ∧ s1.job_description = s.job_description := by
  unfold drafter_node at h
  split at h
  · exact absurd h (by simp)
  · simp only [Except.ok.injEq] at h
    subst h
    exact ⟨rfl, rfl⟩

/-- A proof-producing definition used by `runLoop`'s termination argument:
an `ok` grader step leaves `revision_count` unchanged. -/
def grader_node_rev {oG : String → Except String String} {s s1 : ResumeState}
    (h : grader_node oG s = .ok s1) : s1.revision_count = s.revision_count := by
  unfold grader_node at h
  split at h
  · exact absurd h (by simp)
  · split at h
    · simp only [Except.ok.injEq] at h; subst h; rfl
    · split at h
      · simp only [Except.ok.injEq] at h; subst h; rfl
      · split at h
        · split at h
          · exact absurd h (by simp)
          · split at h
            · exact absurd h (by simp)
            · split at h
              · exact absurd h (by simp)
              · simp only [Except.ok.injEq] at h; subst h; rfl
        · simp only [Except.ok.injEq] at h; subst h; rfl

/-- The compiled LangGraph loop `drafter → grader → router`, entered at the
drafter.  Besides the final result it counts the drafter and grader
invocations of the run.  Termination is enforced by the `router` transition
rule itself: each drafter step increments `revision_count`, and the router
ends the run once it reaches `MAX_REVISION_RETRIES`. -/
def runLoop (oD : String → String → Except String String)
    (oG : String → Except String String) (s : ResumeState) :
    Except String ResumeState × ℕ × ℕ :=
  match hd : drafter_node oD s with
  | .error e => (.error e, 1, 0)
  | .ok s1 =>
    match hg : grader_node oG s1 with
    | .error e => (.error e, 1, 1)
    | .ok s2 =>
      if hr : routerEnds s2 then (.ok s2, 1, 1)
      else
        match runLoop oD oG s2 with
        | (r, d, g) => (r, d + 1, g + 1)
termination_by MAX_REVISION_RETRIES - s.revision_count
decreasing_by
  have h1 := drafter_node_rev hd
  have h2 := grader_node_rev hg
  simp only [routerEnds, Bool.or_eq_true, decide_eq_true_eq, not_or, not_le] at hr
  omega

/-- The initial `ResumeState` built by `optimize_resume_iterative`. -/
def initState (resume job_desc : String) : ResumeState :=
  { original_resume := resume, job_description := job_desc,
    current_draft := resume, feedback := "", score := 0, revision_count := 0 }

/-- `optimize_resume_iterative`: run the graph; an escaping exception is
caught and turned into the original resume plus a bracketed diagnostic; an
empty or missing final draft falls back to the input resume
(`... or resume or ""`). -/
def optimize_resume_iterative (oD : String → String → Except String String)
    (oG : String → Except String String) (resume job_desc : String) : String :=
  match runLoop oD oG (initState resume job_desc) with
  | (.error e, _, _) => resume ++ "\n\n[Error: " ++ e ++ "]"
  | (.ok fs, _, _) => if fs.current_draft = "" then resume else fs.current_draft

/-! ## Spec-side reference definitions -/

/-- A proof-producing definition used by `maxRuns`'s termination argument. -/
def dropWhile_len_le (p : Char → Bool) : ∀ l : List Char, (l.dropWhile p).length ≤ l.length
  | [] => le_refl _
  | c :: cs => by
    simp only [List.dropWhile]
    split
    · exact le_trans (dropWhile_len_le p cs) (Nat.le_succ _)
    · exact le_refl _

/-- Reference definition following the spec's words for C8: the list of
maximal contiguous `[a-z0-9]` runs of a character list, each run taken
greedily with `takeWhile`/`dropWhile` (independent of the scanner
`runsAux` that embeds `re.findall`). -/
def maxRuns : List Char → List (List Char)
  | [] => []
  | c :: cs =>
    if isTokenChar c then (c :: cs.takeWhile isTokenChar) :: maxRuns (cs.dropWhile isTokenChar)
    else maxRuns cs
termination_by cs => cs.length
decreasing_by
  · simp_wf
    have := dropWhile_len_le isTokenChar cs
    omega
  · simp_wf

/-- Rank of a fit label, for stating monotonicity of `_fit_label`. -/
def fitRank (label : String) : ℕ :=
  if label = "✅ Good Fit" then 2 else if label = "⚠️ Stretch" then 1 else 0

/-! ## Helper lemmas -/

/-- The overlap ratio is nonnegative. -/
theorem overlap_ratio_nonneg (rt jt : Finset String) : 0 ≤ _overlap_ratio rt jt := by
  unfold _overlap_ratio
  split
  · exact le_refl 0
  · positivity

/-- The overlap ratio is at most one. -/
theorem overlap_ratio_le_one (rt jt : Finset String) : _overlap_ratio rt jt ≤ 1 := by
  unfold _overlap_ratio
  split
  · exact zero_le_one
  · rename_i hne
    have hpos : 0 < (jt.card : ℚ) := by
      have : 0 < jt.card := Finset.card_pos.mpr (Finset.nonempty_iff_ne_empty.mpr hne)
      exact_mod_cast this
    rw [div_le_one hpos]
    exact_mod_cast Finset.card_le_card (Finset.inter_subset_right)

/-- Python bankers rounding keeps values in an integer interval. -/
theorem pyRound_mem (q : ℚ) (lo hi : ℤ) (hlo : (lo : ℚ) ≤ q) (hhi : q ≤ (hi : ℚ)) :
    lo ≤ pyRound q ∧ pyRound q ≤ hi := by
  unfold pyRound
  have h1 : (⌊q⌋ : ℚ) ≤ q := Int.floor_le q
  have h2 : q < (⌊q⌋ : ℚ) + 1 := Int.lt_floor_add_one q
  have hlo' : lo ≤ ⌊q⌋ := Int.le_floor.mpr hlo
  have hhi' : ⌊q⌋ ≤ hi := by
    have : (⌊q⌋ : ℚ) ≤ (hi : ℚ) := le_trans h1 hhi
    exact_mod_cast this
  split_ifs with hr1 hr2 hr3
  · exact ⟨hlo', hhi'⟩
  · have : ⌊q⌋ < hi := by
      have : (⌊q⌋ : ℚ) < (hi : ℚ) := by linarith
      exact_mod_cast this
    omega
  · exact ⟨hlo', hhi'⟩
  · push_neg at hr1
    have : ⌊q⌋ < hi := by
      have : (⌊q⌋ : ℚ) < (hi : ℚ) := by linarith
      exact_mod_cast this
    omega

/-! ## Claims -/

/-- C6: `_overlap_ratio` equals the intersection-over-job-tokens fraction,
lies in `[0, 1]`, is `0` on an empty job token set, and a posting whose
title and description are both missing/empty yields the empty token set, so
it scores `0` against every resume. -/
theorem overlap_ratio_spec :
    (∀ rt jt : Finset String, jt ≠ ∅ →
      _overlap_ratio rt jt = ((rt ∩ jt).card : ℚ) / (jt.card : ℚ)) ∧
    (∀ rt jt : Finset String, 0 ≤ _overlap_ratio rt jt ∧ _overlap_ratio rt jt ≤ 1) ∧
    (∀ rt : Finset String, _overlap_ratio rt ∅ = 0) ∧
    (∀ rt : Finset String, ∀ title description : Option String,
      title.getD "" = "" → description.getD "" = "" →
      _overlap_ratio rt (_tokenize (title.getD "" ++ " " ++ description.getD "")) = 0) := by
  refine ⟨?_, ?_, ?_, ?_⟩
  · intro rt jt hne
    unfold _overlap_ratio
    rw [if_neg hne]
  · intro rt jt
    exact ⟨overlap_ratio_nonneg rt jt, overlap_ratio_le_one rt jt⟩
  · intro rt
    unfold _overlap_ratio
    rw [if_pos rfl]
  · intro rt title description ht hd
    rw [ht, hd]
    have : _tokenize ("" ++ " " ++ "") = ∅ := by decide
    rw [this]
    unfold _overlap_ratio
    rw [if_pos rfl]

/-- Witness for C6 at concrete inputs. -/
theorem overlap_ratio_spec_witness :
    _overlap_ratio {"python", "sql"} (_tokenize ((none : Option String).getD "" ++ " " ++ (some "").getD "")) = 0 :=
  overlap_ratio_spec.2.2.2 {"python", "sql"} none (some "") rfl rfl

/-- Flattened form of `quick_score_jobs` (definitional). -/
theorem quick_score_jobs_eq (r : String) (jobs : List JobPosting) :
    quick_score_jobs r jobs = jobs.map (fun j =>
      { job := j,
        fit_label := _fit_label (_overlap_ratio (_tokenize r)
          (_tokenize (j.title.getD "" ++ " " ++ j.description.getD ""))),
        overlap_score := pyRound ((_overlap_ratio (_tokenize r)
          (_tokenize (j.title.getD "" ++ " " ++ j.description.getD ""))) * 100) }) := rfl

/-- C5: `quick_score_jobs` preserves length and input order, reproduces
each input posting's fields unchanged inside its output record, keeps
`overlap_score` in `[0, 100]`, scores each posting independently of the
others (so the result is deterministic per (resume, posting) pair), and
depends on a posting only through its `or`-defaulted title and description
(absent/null fields behave as empty strings). -/
theorem quick_score_jobs_spec (r : String) (jobs : List JobPosting) :
    (quick_score_jobs r jobs).length = jobs.length ∧
    (quick_score_jobs r jobs).map ScoredPosting.job = jobs ∧
    (∀ sp ∈ quick_score_jobs r jobs, 0 ≤ sp.overlap_score ∧ sp.overlap_score ≤ 100) ∧
    (∀ jobs2 : List JobPosting,
      quick_score_jobs r (jobs ++ jobs2) = quick_score_jobs r jobs ++ quick_score_jobs r jobs2) ∧
    (∀ j j2 : JobPosting, j.title.getD "" = j2.title.getD "" →
      j.description.getD "" = j2.description.getD "" →
      (quick_score_jobs r [j]).map (fun sp => (sp.fit_label, sp.overlap_score)) =
        (quick_score_jobs r [j2]).map (fun sp => (sp.fit_label, sp.overlap_score))) := by
  refine ⟨?_, ?_, ?_, ?_, ?_⟩
  · rw [quick_score_jobs_eq]
    simp
  · rw [quick_score_jobs_eq, List.map_map]
    exact List.map_id jobs
  · intro sp hsp
    rw [quick_score_jobs_eq] at hsp
    rcases List.mem_map.mp hsp with ⟨j, _, rfl⟩
    set q := _overlap_ratio (_tokenize r)
      (_tokenize (j.title.getD "" ++ " " ++ j.description.getD "")) with hq
    have h0 : 0 ≤ q := overlap_ratio_nonneg _ _
    have h1 : q ≤ 1 := overlap_ratio_le_one _ _
    have := pyRound_mem (q * 100) 0 100 (by push_cast; nlinarith) (by push_cast; nlinarith)
    exact this
  · intro jobs2
    rw [quick_score_jobs_eq, quick_score_jobs_eq, quick_score_jobs_eq, List.map_append]
  · intro j j2 ht hd
    rw [quick_score_jobs_eq, quick_score_jobs_eq]
    simp only [List.map_cons, List.map_nil, ht, hd]

/-- Witness for C5: the spec's end-to-end posting, score within bounds, and
null-vs-empty title equivalence at concrete postings. -/
theorem quick_score_jobs_spec_witness :
    (0 ≤ ((quick_score_jobs "python sql"
        [⟨some "", some "python django sql aws", [("id", "1")]⟩]).headD
          ⟨⟨none, none, []⟩, "", 0⟩).overlap_score ∧
      ((quick_score_jobs "python sql"
        [⟨some "", some "python django sql aws", [("id", "1")]⟩]).headD
          ⟨⟨none, none, []⟩, "", 0⟩).overlap_score ≤ 100) ∧
    (quick_score_jobs "python sql" [⟨none, some "python django sql aws", []⟩]).map
        (fun sp => (sp.fit_label, sp.overlap_score)) =
      (quick_score_jobs "python sql" [⟨some "", some "python django sql aws", [("id", "1")]⟩]).map
        (fun sp => (sp.fit_label, sp.overlap_score)) :=
  ⟨(quick_score_jobs_spec "python sql"
      [⟨some "", some "python django sql aws", [("id", "1")]⟩]).2.2.1 _
      (by rw [quick_score_jobs_eq]; exact List.mem_cons_self _ _),
   (quick_score_jobs_spec "python sql" [⟨none, some "python django sql aws", []⟩]).2.2.2.2 _ _ rfl rfl⟩

/-- C7: `_fit_label` is total on `ℚ` (it is a function), returns Good Fit
from ratio `0.25` inclusive upward, Stretch on `[0.12, 0.25)` with `0.12`
inclusive, Not Recommended below `0.12`, and is monotone in the ratio under
the label ranking NotRecommended < Stretch < GoodFit. -/
theorem fit_label_spec :
    (∀ r : ℚ, 25 / 100 ≤ r → _fit_label r = "✅ Good Fit") ∧
    (∀ r : ℚ, 12 / 100 ≤ r → r < 25 / 100 → _fit_label r = "⚠️ Stretch") ∧
    (∀ r : ℚ, r < 12 / 100 → _fit_label r = "❌ Not Recommended") ∧
    _fit_label (25 / 100) = "✅ Good Fit" ∧
    _fit_label (12 / 100) = "⚠️ Stretch" ∧
    (∀ r r2 : ℚ, r ≤ r2 → fitRank (_fit_label r) ≤ fitRank (_fit_label r2)) := by
  have hgood : ∀ r : ℚ, 25 / 100 ≤ r → _fit_label r = "✅ Good Fit" := by
    intro r h
    unfold _fit_label OVERLAP_GOOD
    rw [if_pos h]
  have hstretch : ∀ r : ℚ, 12 / 100 ≤ r → r < 25 / 100 → _fit_label r = "⚠️ Stretch" := by
    intro r h1 h2
    unfold _fit_label OVERLAP_GOOD OVERLAP_STRETCH
    rw [if_neg (by linarith), if_pos h1]
  have hnot : ∀ r : ℚ, r < 12 / 100 → _fit_label r = "❌ Not Recommended" := by
    intro r h
    unfold _fit_label OVERLAP_GOOD OVERLAP_STRETCH
    rw [if_neg (by linarith), if_neg (by linarith)]
  refine ⟨hgood, hstretch, hnot, hgood _ le_rfl, hstretch _ le_rfl (by norm_num), ?_⟩
  intro r r2 hle
  rcases le_or_lt (25 / 100 : ℚ) r with h | h
  · rw [hgood r h, hgood r2 (le_trans h hle)]
  · rcases le_or_lt (12 / 100 : ℚ) r with h2 | h2
    · rw [hstretch r h2 h]
      rcases le_or_lt (25 / 100 : ℚ) r2 with h3 | h3
      · rw [hgood r2 h3]; decide
      · rw [hstretch r2 (le_trans h2 hle) h3]
    · rw [hnot r h2]
      simp [fitRank]

/-- Witness for C7 at the concrete ratios named in the spec. -/
theorem fit_label_spec_witness :
    _fit_label (30 / 100) = "✅ Good Fit" ∧ _fit_label (15 / 100) = "⚠️ Stretch" ∧
    _fit_label (5 / 100) = "❌ Not Recommended" ∧
    fitRank (_fit_label (5 / 100)) ≤ fitRank (_fit_label (30 / 100)) :=
  ⟨fit_label_spec.1 _ (by norm_num), fit_label_spec.2.1 _ (by norm_num) (by norm_num),
   fit_label_spec.2.2.1 _ (by norm_num), fit_label_spec.2.2.2.2.2 _ _ (by norm_num)⟩

/-- Behavior of `optimize_resume_iterative` when the run raises. -/
theorem optimize_eq_of_error (oD : String → String → Except String String)
    (oG : String → Except String String) (resume job_desc e : String) (d g : ℕ)
    (h : runLoop oD oG (initState resume job_desc) = (.error e, d, g)) :
    optimize_resume_iterative oD oG resume job_desc = resume ++ "\n\n[Error: " ++ e ++ "]" := by
  unfold optimize_resume_iterative
  rw [h]

/-- Behavior of `optimize_resume_iterative` when the run completes. -/
theorem optimize_eq_of_ok (oD : String → String → Except String String)
    (oG : String → Except String String) (resume job_desc : String) (fs : ResumeState) (d g : ℕ)
    (h : runLoop oD oG (initState resume job_desc) = (.ok fs, d, g)) :
    optimize_resume_iterative oD oG resume job_desc =
      if fs.current_draft = "" then resume else fs.current_draft := by
  unfold optimize_resume_iterative
  rw [h]

/-- Length of the error annotation. -/
theorem error_annotation_length (resume e : String) :
    (resume ++ "\n\n[Error: " ++ e ++ "]").length = resume.length + 10 + e.length + 1 := by
  have l1 : ("\n\n[Error: " : String).length = 10 := rfl
  have l2 : ("]" : String).length = 1 := rfl
  simp [String.length_append, l1, l2]

/-- C2: whatever the run does, the controller's public operation returns a
plain string — an exception escaping the drafter/grader loop is caught and
becomes the original resume text with an appended bracketed error
annotation; a completed run returns its final draft (or the resume when
that draft is empty).  Nothing raises to the caller: the function is total
over every oracle. -/
theorem optimize_error_containment (oD : String → String → Except String String)
    (oG : String → Except String String) (resume job_desc : String) :
    (∀ e d g, runLoop oD oG (initState resume job_desc) = (.error e, d, g) →
      optimize_resume_iterative oD oG resume job_desc = resume ++ "\n\n[Error: " ++ e ++ "]") ∧
    (∀ fs d g, runLoop oD oG (initState resume job_desc) = (.ok fs, d, g) →
      optimize_resume_iterative oD oG resume job_desc =
        if fs.current_draft = "" then resume else fs.current_draft) :=
  ⟨fun e d g h => optimize_eq_of_error oD oG resume job_desc e d g h,
   fun fs d g h => optimize_eq_of_ok oD oG resume job_desc fs d g h⟩

/-- Witness for C2: a drafter whose provider raises `boom` on the first
call makes the controller return the annotated original resume. -/
theorem optimize_error_containment_witness :
    optimize_resume_iterative (fun _ _ => .error "boom") (fun _ => .ok "") "R" "J" =
      "R" ++ "\n\n[Error: " ++ "boom" ++ "]" :=
  (optimize_error_containment (fun _ _ => .error "boom") (fun _ => .ok "") "R" "J").1
    "boom" 1 0 (by unfold runLoop; rfl)

/-- C10: a non-empty resume input always yields a non-empty result, even
when every provider call returns empty content; an empty final draft after
the loop is replaced by the input resume; and an empty result is only
possible from an empty input resume. -/
theorem optimize_nonempty (oD : String → String → Except String String)
    (oG : String → Except String String) (resume job_desc : String) :
    (resume ≠ "" → optimize_resume_iterative oD oG resume job_desc ≠ "") ∧
    (∀ fs d g, runLoop oD oG (initState resume job_desc) = (.ok fs, d, g) →
      fs.current_draft = "" → optimize_resume_iterative oD oG resume job_desc = resume) ∧
    (optimize_resume_iterative oD oG resume job_desc = "" → resume = "") := by
  have herr : ∀ e, resume ++ "\n\n[Error: " ++ e ++ "]" ≠ "" := by
    intro e heq
    have := congrArg String.length heq
    rw [error_annotation_length] at this
    simp at this
  refine ⟨?_, ?_, ?_⟩
  · intro hres
    rcases hr : runLoop oD oG (initState resume job_desc) with ⟨res, d, g⟩
    cases res with
    | error e =>
      rw [optimize_eq_of_error oD oG resume job_desc e d g hr]
      exact herr e
    | ok fs =>
      rw [optimize_eq_of_ok oD oG resume job_desc fs d g hr]
      split
      · exact hres
      · assumption
  · intro fs d g hr hdraft
    rw [optimize_eq_of_ok oD oG resume job_desc fs d g hr, if_pos hdraft]
  · intro hout
    rcases hr : runLoop oD oG (initState resume job_desc) with ⟨res, d, g⟩
    cases res with
    | error e =>
      rw [optimize_eq_of_error oD oG resume job_desc e d g hr] at hout
      exact absurd hout (herr e)
    | ok fs =>
      rw [optimize_eq_of_ok oD oG resume job_desc fs d g hr] at hout
      by_cases hdraft : fs.current_draft = ""
      · rwa [if_pos hdraft] at hout
      · rw [if_neg hdraft] at hout
        exact absurd hout hdraft

/-- Witness for C10: non-empty resume, providers that always return empty
content — the result is still non-empty. -/
theorem optimize_nonempty_witness :
    optimize_resume_iterative (fun _ _ => .ok "") (fun _ => .ok "") "ab" "jd" ≠ "" :=
  (optimize_nonempty (fun _ _ => .ok "") (fun _ => .ok "") "ab" "jd").1 (by decide)

/-- Counterexample for C9: with an all-empty starting state (empty original
resume, empty prior draft) and a provider returning empty content, the
drafter step succeeds (`ok`) yet its resulting `current_draft` is the empty
string — the claimed "never empty after a successful drafter step / never
falls back to an empty string" fails. -/
theorem drafter_empty_fallback_cex :
    (drafter_node (fun _ _ => .ok "") (initState "" "")).map ResumeState.current_draft =
      .ok "" := rfl

/-- C9 (amended): after a successful drafter step the draft is non-empty
whenever the prior draft or the (truncated) original resume is non-empty;
and when the provider returns empty content the step returns the fallback
`current` — the prior draft unchanged when one exists, else the truncated
original resume. -/
theorem drafter_fallback_spec (oD : String → String → Except String String)
    (s s' : ResumeState) (h : drafter_node oD s = .ok s') :
    (s.current_draft ≠ "" ∨ _slice s.original_resume CONTEXT_LIMIT ≠ "" → s'.current_draft ≠ "") ∧
    ((∀ sys usr, oD sys usr = .ok "") →
      s'.current_draft = drafterCurrent s ∧
        (s.current_draft ≠ "" → s'.current_draft = s.current_draft)) := by
  unfold drafter_node at h
  rcases hod : oD drafterSystem (drafterUserOf s) with e | draft0 <;> rw [hod] at h
  · exact absurd h (by simp)
  · simp only [Except.ok.injEq] at h
    subst h
    constructor
    · intro hne
      by_cases hd0 : draft0 = ""
      · simp only [hd0, if_pos rfl]
        unfold drafterCurrent
        by_cases hc : s.current_draft = ""
        · rw [if_pos hc]
          rcases hne with hne | hne
          · exact absurd hc hne
          · exact hne
        · rw [if_neg hc]
          exact hc
      · simp only [if_neg hd0]
        exact hd0
    · intro hempty
      have h2 := hempty drafterSystem (drafterUserOf s)
      rw [hod] at h2
      have hd0 : draft0 = "" := (Except.ok.injEq _ _).mp h2
      subst hd0
      constructor
      · show (if ("" : String) = "" then drafterCurrent s else "") = drafterCurrent s
        rw [if_pos rfl]
      · intro hc
        show (if ("" : String) = "" then drafterCurrent s else "") = s.current_draft
        rw [if_pos rfl]
        unfold drafterCurrent
        rw [if_neg hc]

/-- Witness for C9's amended theorem at a concrete state and empty-content
provider. -/
theorem drafter_fallback_spec_witness :
    ({ original_resume := "x", job_description := "j", current_draft := "x",
       feedback := "", score := 0, revision_count := 1 } : ResumeState).current_draft ≠ "" :=
  (drafter_fallback_spec (fun _ _ => .ok "") (initState "x" "j")
      { original_resume := "x", job_description := "j", current_draft := "x",
        feedback := "", score := 0, revision_count := 1 } rfl).1 (Or.inl (by decide))

/-- Counterexample for C4: a structured provider response with `score` 15
produces a GradeResult whose score is 15 — neither the 0 sentinel nor in
the range 1–10; the grader does not validate the range. -/
theorem grader_range_cex :
    (grader_node (fun _ => .ok "\x7b\"score\": 15, \"feedback\": \"x\"\x7d")
        (initState "" "")).map ResumeState.score = .ok 15 ∧
    ¬((15 : ℤ) = 0 ∨ (1 ≤ (15 : ℤ) ∧ (15 : ℤ) ≤ 10)) :=
  ⟨rfl, by decide⟩

/-- C3: the grader's structured-response extraction tries, in fixed order,
fenced-code-block extraction, then bare-braces extraction, then a
whole-text parse; the spec's concrete fenced example grades to score 7 with
feedback "ok"; and any response from which no strategy extracts valid
structured data makes the grader return the sentinel
`score 0 / "Could not grade."` as a normal (`ok`) step — a grading failure
is never fatal to the controller. -/
theorem extraction_spec :
    (∀ s : ResumeState,
      grader_node
        (fun _ => .ok "Here you go: ```json\n\x7b\"score\": 7, \"feedback\": \"ok\"\x7d\n```") s =
        .ok { s with score := 7, feedback := "ok" }) ∧
    (∀ t : String, ∀ g : List Char, ∀ j : Json,
      fencedSearch (pyStrip t).data = some g → jsonLoads (String.mk g) = some j →
      _extract_json t = some j) ∧
    (∀ t : String, ∀ g2 : List Char, ∀ j : Json,
      (fencedSearch (pyStrip t).data = none ∨
        (∃ g, fencedSearch (pyStrip t).data = some g ∧ jsonLoads (String.mk g) = none)) →
      bareBraces (pyStrip t).data = some g2 → jsonLoads (String.mk g2) = some j →
      _extract_json t = some j) ∧
    (∀ t : String,
      (fencedSearch (pyStrip t).data = none ∨
        (∃ g, fencedSearch (pyStrip t).data = some g ∧ jsonLoads (String.mk g) = none)) →
      (bareBraces (pyStrip t).data = none ∨
        (∃ g, bareBraces (pyStrip t).data = some g ∧ jsonLoads (String.mk g) = none)) →
      _extract_json t = jsonLoads (pyStrip t)) ∧
    (∀ raw : String, _extract_json raw = none → ∀ s : ResumeState,
      grader_node (fun _ => .ok raw) s =
        .ok { s with score := 0, feedback := "Could not grade." }) := by
  refine ⟨fun s => rfl, ?_, ?_, ?_, ?_⟩
  · intro t g j h1 h2
    unfold _extract_json
    rw [h1]
    dsimp only
    rw [h2]
  · intro t g2 j hfen hbare hj
    unfold _extract_json
    rcases hfen with hfen | ⟨g, hfen, hg⟩ <;> rw [hfen] <;> dsimp only
    · unfold extractTail
      rw [hbare]
      dsimp only
      rw [hj]
    · rw [hg]
      dsimp only
      unfold extractTail
      rw [hbare]
      dsimp only
      rw [hj]
  · intro t hfen hbare
    have htail : extractTail (pyStrip t).data = jsonLoads (pyStrip t) := by
      unfold extractTail
      rcases hbare with hbare | ⟨g, hbare, hg⟩
      · rw [hbare]
      · rw [hbare]
        dsimp only
        rw [hg]
    rcases hfen with hfen | ⟨g, hfen, hg⟩ <;> unfold _extract_json <;> rw [hfen] <;> dsimp only
    · exact htail
    · rw [hg]
      dsimp only
      exact htail
  · intro raw hnone s
    unfold grader_node
    dsimp only
    by_cases he : raw = ""
    · rw [if_pos he]
    · rw [if_neg he, hnone]

/-- Witness for C3 at concrete inputs: unparsable garbage yields the
sentinel grade without aborting the step. -/
theorem extraction_spec_witness :
    grader_node (fun _ => .ok "no json here") (initState "r" "j") =
      .ok { initState "r" "j" with score := 0, feedback := "Could not grade." } :=
  extraction_spec.2.2.2.2 "no json here" rfl (initState "r" "j")

/-- Unfolding: the first drafter call raises. -/
theorem runLoop_eq_error₁ (oD : String → String → Except String String)
    (oG : String → Except String String) (s : ResumeState) (e : String)
    (hd : drafter_node oD s = .error e) : runLoop oD oG s = (.error e, 1, 0) := by
  unfold runLoop
  split
  · rename_i e2 heq
    rw [hd] at heq
    simp only [Except.error.injEq] at heq
    rw [heq]
  · rename_i s1 heq
    rw [hd] at heq
    exact absurd heq (by simp)

/-- Unfolding: the drafter succeeds and the grader raises. -/
theorem runLoop_eq_error₂ (oD : String → String → Except String String)
    (oG : String → Except String String) (s s1 : ResumeState) (e : String)
    (hd : drafter_node oD s = .ok s1) (hg : grader_node oG s1 = .error e) :
    runLoop oD oG s = (.error e, 1, 1) := by
  unfold runLoop
  split
  · rename_i e2 heq
    rw [hd] at heq
    exact absurd heq (by simp)
  · rename_i s1' heq
    rw [hd] at heq
    simp only [Except.ok.injEq] at heq
    subst heq
    split
    · rename_i e2 heq2
      rw [hg] at heq2
      simp only [Except.error.injEq] at heq2
      rw [heq2]
    · rename_i s2 heq2
      rw [hg] at heq2
      exact absurd heq2 (by simp)

/-- Unfolding: one drafter/grader round after which the router ends. -/
theorem runLoop_eq_done (oD : String → String → Except String String)
    (oG : String → Except String String) (s s1 s2 : ResumeState)
    (hd : drafter_node oD s = .ok s1) (hg : grader_node oG s1 = .ok s2)
    (hr : routerEnds s2 = true) : runLoop oD oG s = (.ok s2, 1, 1) := by
  unfold runLoop
  split
  · rename_i e2 heq
    rw [hd] at heq
    exact absurd heq (by simp)
  · rename_i s1' heq
    rw [hd] at heq
    simp only [Except.ok.injEq] at heq
    subst heq
    split
    · rename_i e2 heq2
      rw [hg] at heq2
      exact absurd heq2 (by simp)
    · rename_i s2' heq2
      rw [hg] at heq2
      simp only [Except.ok.injEq] at heq2
      subst heq2
      rw [dif_pos hr]

/-- Unfolding: one drafter/grader round after which the router loops. -/
theorem runLoop_eq_step (oD : String → String → Except String String)
    (oG : String → Except String String) (s s1 s2 : ResumeState)
    (r : Except String ResumeState) (d g : ℕ)
    (hd : drafter_node oD s = .ok s1) (hg : grader_node oG s1 = .ok s2)
    (hr : routerEnds s2 = false) (hrun : runLoop oD oG s2 = (r, d, g)) :
    runLoop oD oG s = (r, d + 1, g + 1) := by
  unfold runLoop
  split
  · rename_i e2 heq
    rw [hd] at heq
    exact absurd heq (by simp)
  · rename_i s1' heq
    rw [hd] at heq
    simp only [Except.ok.injEq] at heq
    subst heq
    split
    · rename_i e2 heq2
      rw [hg] at heq2
      exact absurd heq2 (by simp)
    · rename_i s2' heq2
      rw [hg] at heq2
      simp only [Except.ok.injEq] at heq2
      subst heq2
      rw [dif_neg (by rw [hr]; exact Bool.false_ne_true)]
      rw [hrun]

/-- An empty response extracts nothing. -/
theorem extract_json_empty : _extract_json "" = none := rfl

/-- A non-empty response reached the extraction path: helper rewriting
`grader_node` down to the post-extraction branch. -/
theorem grader_node_of_some (oG : String → Except String String) (s : ResumeState)
    (raw : String) (v : Json) (hraw : oG (grader_prompt s) = .ok raw)
    (hext : _extract_json raw = some v) :
    grader_node oG s =
      (if jsonTruthy v then
        match pyDictGet v "score" (Json.num 0) with
        | .error e => .error e
        | .ok sv =>
          match pyInt sv with
          | .error e => .error e
          | .ok sc =>
            match pyDictGet v "feedback" (Json.str "Could not grade.") with
            | .error e => .error e
            | .ok fv => .ok { s with score := sc, feedback := pyStr fv }
      else .ok { s with score := 0, feedback := "Could not grade." }) := by
  have hne : raw ≠ "" := by
    intro he
    rw [he, extract_json_empty] at hext
    cases hext
  unfold grader_node
  rw [hraw]
  dsimp only
  rw [if_neg hne, hext]

/-- C4 (amended): a grading step's score is the 0 sentinel exactly when no
structured data can be extracted from the response (including the empty
response) or the extracted value is falsy; otherwise it is the unvalidated
`int()` of the response's `score` field — never clamped to 1–10, so any
integer (e.g. 15) passes through into the GradeResult; and a `score` field
that `int()` cannot convert raises instead of producing a GradeResult, an
exception the controller turns into the annotated original resume. -/
theorem grader_score_spec (oG : String → Except String String) (s : ResumeState) :
    (∀ raw, oG (grader_prompt s) = .ok raw → _extract_json raw = none →
      grader_node oG s = .ok { s with score := 0, feedback := "Could not grade." }) ∧
    (∀ raw v, oG (grader_prompt s) = .ok raw → _extract_json raw = some v →
      jsonTruthy v = false →
      grader_node oG s = .ok { s with score := 0, feedback := "Could not grade." }) ∧
    (∀ raw v sv n fv, oG (grader_prompt s) = .ok raw → _extract_json raw = some v →
      jsonTruthy v = true → pyDictGet v "score" (Json.num 0) = .ok sv →
      pyInt sv = .ok n → pyDictGet v "feedback" (Json.str "Could not grade.") = .ok fv →
      grader_node oG s = .ok { s with score := n, feedback := pyStr fv }) ∧
    (∀ raw v sv e, oG (grader_prompt s) = .ok raw → _extract_json raw = some v →
      jsonTruthy v = true → pyDictGet v "score" (Json.num 0) = .ok sv →
      pyInt sv = .error e → grader_node oG s = .error e) ∧
    (∀ resume jd : String,
      optimize_resume_iterative (fun _ _ => .ok "DRAFT")
        (fun _ => .ok "\x7b\"score\": \"abc\", \"feedback\": \"x\"\x7d") resume jd =
        resume ++ "\n\n[Error: " ++ "ValueError" ++ "]") := by
  refine ⟨?_, ?_, ?_, ?_, ?_⟩
  · intro raw hraw hnone
    unfold grader_node
    rw [hraw]
    dsimp only
    by_cases he : raw = ""
    · rw [if_pos he]
    · rw [if_neg he, hnone]
  · intro raw v hraw hext hfalsy
    rw [grader_node_of_some oG s raw v hraw hext]
    rw [if_neg (by rw [hfalsy]; exact Bool.false_ne_true)]
  · intro raw v sv n fv hraw hext htruthy hsv hn hfv
    rw [grader_node_of_some oG s raw v hraw hext]
    rw [if_pos htruthy, hsv]
    dsimp only
    rw [hn]
    dsimp only
    rw [hfv]
  · intro raw v sv e hraw hext htruthy hsv he
    rw [grader_node_of_some oG s raw v hraw hext]
    rw [if_pos htruthy, hsv]
    dsimp only
    rw [he]
  · intro resume jd
    have hd : drafter_node (fun _ _ => .ok "DRAFT") (initState resume jd) =
        .ok { original_resume := resume, job_description := jd, current_draft := "DRAFT",
              feedback := "", score := 0, revision_count := 1 } := rfl
    have hg : grader_node (fun _ => .ok "\x7b\"score\": \"abc\", \"feedback\": \"x\"\x7d")
        { original_resume := resume, job_description := jd, current_draft := "DRAFT",
          feedback := "", score := 0, revision_count := 1 } = .error "ValueError" := rfl
    exact optimize_eq_of_error _ _ resume jd "ValueError" 1 1
      (runLoop_eq_error₂ _ _ (initState resume jd) _ "ValueError" hd hg)

/-- Witness for C4's amended theorem at concrete inputs: the out-of-range
score 15 passes through unclamped, an unparsable response yields the
sentinel, the falsy `\x7b\x7d` response yields the sentinel, and the
unconvertible score aborts a concrete run into the annotated resume. -/
theorem grader_score_spec_witness :
    grader_node (fun _ => .ok "\x7b\"score\": 15, \"feedback\": \"x\"\x7d") (initState "" "") =
      .ok { initState "" "" with score := 15, feedback := "x" } ∧
    grader_node (fun _ => .ok "garbage text") (initState "" "") =
      .ok { initState "" "" with score := 0, feedback := "Could not grade." } ∧
    grader_node (fun _ => .ok "\x7b\x7d") (initState "" "") =
      .ok { initState "" "" with score := 0, feedback := "Could not grade." } ∧
    optimize_resume_iterative (fun _ _ => .ok "DRAFT")
      (fun _ => .ok "\x7b\"score\": \"abc\", \"feedback\": \"x\"\x7d") "R" "J" =
      "R" ++ "\n\n[Error: " ++ "ValueError" ++ "]" :=
  ⟨(grader_score_spec (fun _ => .ok "\x7b\"score\": 15, \"feedback\": \"x\"\x7d")
      (initState "" "")).2.2.1 _ (.obj [("score", .num 15), ("feedback", .str "x")])
      (.num 15) 15 (.str "x") rfl rfl rfl rfl rfl rfl,
   (grader_score_spec (fun _ => .ok "garbage text") (initState "" "")).1
      "garbage text" rfl rfl,
   (grader_score_spec (fun _ => .ok "\x7b\x7d") (initState "" "")).2.1
      "\x7b\x7d" (.obj []) rfl rfl rfl,
   (grader_score_spec (fun _ => .ok "\x7b\"score\": \"abc\", \"feedback\": \"x\"\x7d")
      (initState "" "")).2.2.2.2 "R" "J"⟩

/-- Loop invariant: from any state, the run makes at most
`1 + (1 - revision_count)` drafter calls, at most as many grader calls as
drafter calls, and on a completed run the final `revision_count` is the
starting one plus the number of drafter calls. -/
theorem runLoop_bounds (oD : String → String → Except String String)
    (oG : String → Except String String) (s : ResumeState) :
    (runLoop oD oG s).2.1 ≤ 1 + (1 - s.revision_count) ∧
    (runLoop oD oG s).2.2 ≤ (runLoop oD oG s).2.1 ∧
    ∀ fs, (runLoop oD oG s).1 = .ok fs →
      fs.revision_count = s.revision_count + (runLoop oD oG s).2.1 := by
  induction s using runLoop.induct oD oG with
  | case1 x e hd =>
    rw [runLoop_eq_error₁ oD oG x e hd]
    dsimp only
    refine ⟨by omega, by omega, ?_⟩
    intro fs hfs
    exact absurd hfs (by simp)
  | case2 x s1 hd e hg =>
    rw [runLoop_eq_error₂ oD oG x s1 e hd hg]
    dsimp only
    refine ⟨by omega, by omega, ?_⟩
    intro fs hfs
    exact absurd hfs (by simp)
  | case3 x s1 hd s2 hg hr =>
    rw [runLoop_eq_done oD oG x s1 s2 hd hg hr]
    dsimp only
    refine ⟨by omega, by omega, ?_⟩
    intro fs hfs
    simp only [Except.ok.injEq] at hfs
    subst hfs
    have h1 := drafter_node_rev hd
    have h2 := grader_node_rev hg
    omega
  | case4 x s1 hd s2 hg hr r d g hrun ih =>
    have hr' : routerEnds s2 = false := by
      cases hb : routerEnds s2
      · rfl
      · exact absurd hb hr
    rw [runLoop_eq_step oD oG x s1 s2 r d g hd hg hr' hrun]
    dsimp only
    rw [hrun] at ih
    dsimp only at ih
    have h1 := drafter_node_rev hd
    have h2 := grader_node_rev hg
    have hcap : s2.revision_count < MAX_REVISION_RETRIES := by
      simp only [routerEnds, Bool.or_eq_false_iff, decide_eq_false_iff_not, not_le] at hr'
      exact hr'.2
    unfold MAX_REVISION_RETRIES at hcap
    refine ⟨by omega, by omega, ?_⟩
    intro fs hfs
    have := ih.2.2 fs hfs
    omega

/-- Totality helper: an always-`ok` drafter oracle makes the drafter step
succeed. -/
theorem drafter_node_total (oD : String → String → Except String String)
    (s : ResumeState) (h : ∀ sys usr, ∃ t, oD sys usr = .ok t) :
    ∃ s1, drafter_node oD s = .ok s1 := by
  obtain ⟨t, ht⟩ := h drafterSystem (drafterUserOf s)
  unfold drafter_node
  rw [ht]
  exact ⟨_, rfl⟩

/-- C1: for every oracle and input the run terminates (the loop is a total
function) with at most 2 drafter and 2 grader invocations; on a completed
run the final `revision_count` equals the number of drafter invocations
(it rises by exactly 1 per drafter call from 0); a grader that always
returns a score below the quality gate drives the run to exactly 2 drafter
and 2 grader calls with `revision_count` 2 at termination; and a first
grade at or above the gate ends the run after exactly one drafter
invocation. -/
theorem controller_iteration_bounds :
    (∀ (oD : String → String → Except String String) (oG : String → Except String String)
      (resume jd : String),
      (runLoop oD oG (initState resume jd)).2.1 ≤ 2 ∧
      (runLoop oD oG (initState resume jd)).2.2 ≤ 2) ∧
    (∀ (oD : String → String → Except String String) (oG : String → Except String String)
      (resume jd : String) (fs : ResumeState),
      (runLoop oD oG (initState resume jd)).1 = .ok fs →
      fs.revision_count = (runLoop oD oG (initState resume jd)).2.1) ∧
    (∀ (oD : String → String → Except String String) (oG : String → Except String String)
      (resume jd : String),
      (∀ sys usr, ∃ t, oD sys usr = .ok t) →
      (∀ t, ∃ t2, grader_node oG t = .ok t2 ∧ t2.score < SCORE_GOOD_ENOUGH) →
      ∃ fs, runLoop oD oG (initState resume jd) = (.ok fs, 2, 2) ∧ fs.revision_count = 2) ∧
    (∀ (oD : String → String → Except String String) (oG : String → Except String String)
      (resume jd : String) (s1 s2 : ResumeState),
      drafter_node oD (initState resume jd) = .ok s1 →
      grader_node oG s1 = .ok s2 → SCORE_GOOD_ENOUGH ≤ s2.score →
      runLoop oD oG (initState resume jd) = (.ok s2, 1, 1) ∧ s2.revision_count = 1) := by
  have hinit : ∀ resume jd : String, (initState resume jd).revision_count = 0 := fun _ _ => rfl
  refine ⟨?_, ?_, ?_, ?_⟩
  · intro oD oG resume jd
    have h := runLoop_bounds oD oG (initState resume jd)
    rw [hinit] at h
    exact ⟨by omega, by omega⟩
  · intro oD oG resume jd fs hfs
    have h := runLoop_bounds oD oG (initState resume jd)
    have := h.2.2 fs hfs
    rw [hinit] at this
    omega
  · intro oD oG resume jd hD hG
    obtain ⟨s1, hd1⟩ := drafter_node_total oD (initState resume jd) hD
    obtain ⟨s2, hg1, hs2⟩ := hG s1
    have hrev1 : s1.revision_count = 1 := by
      have := drafter_node_rev hd1
      rw [hinit] at this
      omega
    have hrev2 : s2.revision_count = 1 := by
      have := grader_node_rev hg1
      omega
    have hr1 : routerEnds s2 = false := by
      simp only [routerEnds, Bool.or_eq_false_iff, decide_eq_false_iff_not, not_le]
      unfold MAX_REVISION_RETRIES
      exact ⟨hs2, by omega⟩
    obtain ⟨s3, hd2⟩ := drafter_node_total oD s2 hD
    obtain ⟨s4, hg2, hs4⟩ := hG s3
    have hrev3 : s3.revision_count = 2 := by
      have := drafter_node_rev hd2
      omega
    have hrev4 : s4.revision_count = 2 := by
      have := grader_node_rev hg2
      omega
    have hr2 : routerEnds s4 = true := by
      simp only [routerEnds, Bool.or_eq_true, decide_eq_true_eq]
      right
      unfold MAX_REVISION_RETRIES
      omega
    have hinner : runLoop oD oG s2 = (.ok s4, 1, 1) :=
      runLoop_eq_done oD oG s2 s3 s4 hd2 hg2 hr2
    exact ⟨s4, runLoop_eq_step oD oG (initState resume jd) s1 s2 (.ok s4) 1 1 hd1 hg1 hr1 hinner,
      hrev4⟩
  · intro oD oG resume jd s1 s2 hd hg hscore
    have hrev2 : s2.revision_count = 1 := by
      have h1 := drafter_node_rev hd
      have h2 := grader_node_rev hg
      rw [hinit] at h1
      omega
    have hr : routerEnds s2 = true := by
      simp only [routerEnds, Bool.or_eq_true, decide_eq_true_eq]
      exact Or.inl hscore
    exact ⟨runLoop_eq_done oD oG (initState resume jd) s1 s2 hd hg hr, hrev2⟩

/-- Witness for C1: with a drafter always returning `DRAFT` and a grader
always answering score 1, the run makes exactly 2 drafter and 2 grader
calls and ends at `revision_count` 2; with a first grade of 9 it ends
after exactly one drafter call. -/
theorem controller_iteration_bounds_witness :
    (∃ fs, runLoop (fun _ _ => .ok "DRAFT")
        (fun _ => .ok "\x7b\"score\": 1, \"feedback\": \"f\"\x7d") (initState "R" "J") =
        (.ok fs, 2, 2) ∧ fs.revision_count = 2) ∧
    (runLoop (fun _ _ => .ok "DRAFT")
        (fun _ => .ok "\x7b\"score\": 9, \"feedback\": \"g\"\x7d") (initState "R" "J") =
        (.ok { original_resume := "R", job_description := "J", current_draft := "DRAFT",
               feedback := "g", score := 9, revision_count := 1 }, 1, 1)) :=
  ⟨controller_iteration_bounds.2.2.1 (fun _ _ => .ok "DRAFT")
      (fun _ => .ok "\x7b\"score\": 1, \"feedback\": \"f\"\x7d") "R" "J"
      (fun _ _ => ⟨"DRAFT", rfl⟩)
      (fun t => ⟨{ t with score := 1, feedback := "f" }, rfl,
        by show (1 : ℤ) < SCORE_GOOD_ENOUGH; decide⟩),
   (controller_iteration_bounds.2.2.2 (fun _ _ => .ok "DRAFT")
      (fun _ => .ok "\x7b\"score\": 9, \"feedback\": \"g\"\x7d") "R" "J"
      { original_resume := "R", job_description := "J", current_draft := "DRAFT",
        feedback := "", score := 0, revision_count := 1 }
      { original_resume := "R", job_description := "J", current_draft := "DRAFT",
        feedback := "g", score := 9, revision_count := 1 }
      rfl rfl (by decide)).1⟩

/-- `maxRuns` on the empty list. -/
theorem maxRuns_nil : maxRuns [] = [] := by
  unfold maxRuns
  rfl

/-- `maxRuns` unfolding on a cons. -/
theorem maxRuns_cons (c : Char) (cs : List Char) :
    maxRuns (c :: cs) = if isTokenChar c then
      (c :: cs.takeWhile isTokenChar) :: maxRuns (cs.dropWhile isTokenChar)
    else maxRuns cs := by
  conv_lhs => unfold maxRuns

/-- The scanner with a non-empty accumulator of token characters emits the
accumulated run extended with the greedy prefix, then scans on. -/
theorem runsAux_go (cs : List Char) : ∀ acc : List Char, acc ≠ [] →
    runsAux acc cs =
      (acc.reverse ++ cs.takeWhile isTokenChar) :: runsAux [] (cs.dropWhile isTokenChar) := by
  induction cs with
  | nil =>
    intro acc hacc
    simp [runsAux, hacc]
  | cons c cs ih =>
    intro acc hacc
    by_cases hc : isTokenChar c
    · simp only [runsAux, hc, if_true]
      rw [ih (c :: acc) (by simp)]
      simp [List.takeWhile_cons_of_pos, List.dropWhile_cons_of_pos, hc]
    · simp only [runsAux, hc, if_false, Bool.false_eq_true]
      rw [if_neg hacc]
      simp [List.takeWhile_cons_of_neg, List.dropWhile_cons_of_neg, hc, runsAux]

/-- The `re.findall` scanner produces exactly the maximal token runs of the
reference definition. -/
theorem runsAux_eq_maxRuns : ∀ cs : List Char, runsAux [] cs = maxRuns cs := by
  intro cs
  induction cs using maxRuns.induct with
  | case1 =>
    rw [maxRuns_nil]
    rfl
  | case2 c cs hc ih =>
    show runsAux [] (c :: cs) = _
    simp only [runsAux, hc, if_true]
    rw [runsAux_go cs [c] (by simp), ih, maxRuns_cons, if_pos hc]
    simp
  | case3 c cs hc ih =>
    show runsAux [] (c :: cs) = _
    simp only [runsAux, hc, if_false, Bool.false_eq_true]
    rw [maxRuns_cons, if_neg hc]
    simpa using ih

/-- Every run produced by `maxRuns` is a non-empty run of token
characters. -/
theorem maxRuns_sound : ∀ cs : List Char, ∀ r ∈ maxRuns cs,
    r ≠ [] ∧ ∀ c ∈ r, isTokenChar c = true := by
  intro cs
  induction cs using maxRuns.induct with
  | case1 =>
    intro r hr
    rw [maxRuns_nil] at hr
    cases hr
  | case2 c cs hc ih =>
    intro r hr
    rw [maxRuns_cons, if_pos hc] at hr
    rcases List.mem_cons.mp hr with rfl | hr
    · refine ⟨by simp, ?_⟩
      intro x hx
      rcases List.mem_cons.mp hx with rfl | hx
      · exact hc
      · exact List.mem_takeWhile_imp hx
    · exact ih r hr
  | case3 c cs hc ih =>
    intro r hr
    rw [maxRuns_cons, if_neg hc] at hr
    exact ih r hr

/-- C8: `_tokenize` equals the deduplicated set (a `Finset`) of the maximal
contiguous alphanumeric runs of length at least 2 of the lowercased input
(`maxRuns` is the independent reference definition of those runs); a
non-string argument (rejected by the `isinstance` guard, modelled by
`none`) and the empty string both yield the empty set; every produced token
indeed has length at least 2 and consists of `[a-z0-9]` characters; and
tokenization is pure — equal inputs give equal token sets. -/
theorem tokenize_spec :
    (∀ t : String, _tokenize t =
      (((maxRuns (t.data.map Char.toLower)).filter (fun r => 2 ≤ r.length)).map String.mk).toFinset) ∧
    tokenizeArg none = ∅ ∧
    _tokenize "" = ∅ ∧
    (∀ t : String, ∀ s ∈ _tokenize t, 2 ≤ s.length ∧ ∀ c ∈ s.data, isTokenChar c = true) ∧
    (∀ t1 t2 : String, t1 = t2 → _tokenize t1 = _tokenize t2) := by
  have hmain : ∀ t : String, _tokenize t =
      (((maxRuns (t.data.map Char.toLower)).filter (fun r => 2 ≤ r.length)).map String.mk).toFinset := by
    intro t
    unfold _tokenize
    by_cases ht : t = ""
    · subst ht
      rw [if_pos rfl, show (("" : String).data.map Char.toLower) = [] from rfl, maxRuns_nil]
      simp
    · rw [if_neg ht]
      unfold findAll
      rw [runsAux_eq_maxRuns]
  refine ⟨hmain, rfl, rfl, ?_, fun t1 t2 h => h ▸ rfl⟩
  intro t s hs
  rw [hmain t] at hs
  simp only [List.mem_toFinset] at hs
  rcases List.mem_map.mp hs with ⟨r, hr, rfl⟩
  rcases List.mem_filter.mp hr with ⟨hrmem, hlen⟩
  have hsound := (maxRuns_sound _ r hrmem).2
  constructor
  · simpa using hlen
  · intro c hc
    exact hsound c hc

/-- Witness for C8: the token `ab` extracted from `AB!x` (lowercased; `x`
is dropped as a length-1 run). -/
theorem tokenize_spec_witness :
    2 ≤ ("ab" : String).length ∧ ∀ c ∈ ("ab" : String).data, isTokenChar c = true :=
  tokenize_spec.2.2.2.1 "AB!x" "ab" (by decide)

end JobHunter
